import Mathlib

/-!
Shallow embedding of the data-cleansing ETL core (column normalization,
validators, transformations, quality engine, silver builder, PII masking,
access-grant resolution, SCD Type 2 contract) and proofs of the spec claims.
Strings are modelled as Lean strings via their character lists; Spark SQL
nullable values are modelled as `Option`; Spark three-valued booleans as
`Option Bool`; timestamps as `Int`; numeric scores as `ℚ`.
-/

namespace DataCleansing

/-! ## Python / Spark string primitives -/

/-- Characters treated as whitespace by Python `str.strip` (ASCII range). -/
def pyIsSpace (c : Char) : Bool :=
  c.toNat = 32 || c.toNat = 9 || c.toNat = 10 || c.toNat = 13 || c.toNat = 11 || c.toNat = 12

/-- Python `str.strip`: drop leading and trailing whitespace. -/
def pyStrip (l : List Char) : List Char :=
  ((l.dropWhile pyIsSpace).reverse.dropWhile pyIsSpace).reverse

/-- Python `str.lower` (ASCII letters). -/
def pyLower (l : List Char) : List Char :=
  l.map Char.toLower

/-- Python `str.replace(" ", "_")`: replace every space by an underscore. -/
def replaceSpaceToUnderscore (l : List Char) : List Char :=
  l.map (fun c => if c = ' ' then '_' else c)

/-- Python `str.replace("__", "_")`: one left-to-right non-overlapping pass
replacing each doubled underscore by a single underscore. -/
def collapseDoubleUnderscore : List Char → List Char
  | [] => []
  | [c] => [c]
  | c :: d :: rest =>
    if c = '_' ∧ d = '_' then '_' :: collapseDoubleUnderscore rest
    else c :: collapseDoubleUnderscore (d :: rest)

/-! ## utils/column_utils.py -/

/-- `normalize_column_name` from `utils/column_utils.py`:
`col_name.strip().lower().replace(" ", "_").replace("__", "_")`. -/
def normalize_column_name (s : String) : String :=
  ⟨collapseDoubleUnderscore (replaceSpaceToUnderscore (pyLower (pyStrip s.data)))⟩

/-- Predicate for the exception clause of claim C6 as written: the input
contains three or more consecutive spaces. -/
def hasThreeConsecutiveSpaces : List Char → Bool
  | c1 :: c2 :: c3 :: rest =>
    if c1 = ' ' ∧ c2 = ' ' ∧ c3 = ' ' then true
    else hasThreeConsecutiveSpaces (c2 :: c3 :: rest)
  | _ => false

/-- A doubled underscore occurs somewhere in the character list. -/
def hasDoubleUnderscore : List Char → Bool
  | [] => false
  | [_] => false
  | c :: d :: rest =>
    if c = '_' ∧ d = '_' then true else hasDoubleUnderscore (d :: rest)

/-! ### Character-level facts -/

theorem toNat_ofNat_valid (n : Nat) (h : n < 55296) : (Char.ofNat n).toNat = n := by
  rw [Char.ofNat, dif_pos (Or.inl h)]
  rfl

theorem toLower_toNat (c : Char) :
    (65 ≤ c.toNat ∧ c.toNat ≤ 90 ∧ (Char.toLower c).toNat = c.toNat + 32) ∨
      Char.toLower c = c := by
  unfold Char.toLower
  by_cases h : c.toNat ≥ 65 ∧ c.toNat ≤ 90
  · left
    refine ⟨h.1, h.2, ?_⟩
    rw [if_pos h]
    exact toNat_ofNat_valid _ (by omega)
  · right
    rw [if_neg h]

theorem toLower_idem (c : Char) : Char.toLower (Char.toLower c) = Char.toLower c := by
  rcases toLower_toNat c with ⟨_, _, h3⟩ | h
  · rcases toLower_toNat (Char.toLower c) with ⟨h1, h2, _⟩ | h
    · omega
    · exact h
  · rw [h, h]

theorem pyIsSpace_toLower (c : Char) : pyIsSpace (Char.toLower c) = pyIsSpace c := by
  rcases toLower_toNat c with ⟨h1, h2, h3⟩ | h
  · simp only [pyIsSpace, h3]
    rw [decide_eq_false (by omega : ¬ (c.toNat + 32 = 32)),
      decide_eq_false (by omega : ¬ (c.toNat + 32 = 9)),
      decide_eq_false (by omega : ¬ (c.toNat + 32 = 10)),
      decide_eq_false (by omega : ¬ (c.toNat + 32 = 13)),
      decide_eq_false (by omega : ¬ (c.toNat + 32 = 11)),
      decide_eq_false (by omega : ¬ (c.toNat + 32 = 12)),
      decide_eq_false (by omega : ¬ (c.toNat = 32)),
      decide_eq_false (by omega : ¬ (c.toNat = 9)),
      decide_eq_false (by omega : ¬ (c.toNat = 10)),
      decide_eq_false (by omega : ¬ (c.toNat = 13)),
      decide_eq_false (by omega : ¬ (c.toNat = 11)),
      decide_eq_false (by omega : ¬ (c.toNat = 12))]
  · rw [h]

theorem char_eq_iff_toNat (c d : Char) : c = d ↔ c.toNat = d.toNat := by
  constructor
  · rintro rfl; rfl
  · intro h
    apply Char.eq_of_val_eq
    apply UInt32.toNat.inj h

/-! ### List-level facts about the normalizer -/

theorem collapse_of_no_double :
    ∀ l : List Char, hasDoubleUnderscore l = false → collapseDoubleUnderscore l = l
  | [], _ => rfl
  | [_], _ => rfl
  | c :: d :: rest, h => by
    rw [hasDoubleUnderscore] at h
    by_cases hc : c = '_' ∧ d = '_'
    · rw [if_pos hc] at h
      exact absurd h (by simp)
    · rw [if_neg hc] at h
      rw [collapseDoubleUnderscore, if_neg hc, collapse_of_no_double (d :: rest) h]

theorem mem_collapse :
    ∀ l : List Char, ∀ c, c ∈ collapseDoubleUnderscore l → c ∈ l
  | [], _, h => h
  | [_], _, h => h
  | a :: d :: rest, c, h => by
    rw [collapseDoubleUnderscore] at h
    by_cases hc : a = '_' ∧ d = '_'
    · rw [if_pos hc] at h
      rcases List.mem_cons.mp h with h1 | h2
      · subst h1; rw [hc.1]; exact List.mem_cons_self _ _
      · exact List.mem_cons_of_mem _ (List.mem_cons_of_mem _ (mem_collapse rest c h2))
    · rw [if_neg hc] at h
      rcases List.mem_cons.mp h with h1 | h2
      · subst h1; exact List.mem_cons_self _ _
      · exact List.mem_cons_of_mem _ (mem_collapse (d :: rest) c h2)

theorem collapse_ne_nil : ∀ l : List Char, l ≠ [] → collapseDoubleUnderscore l ≠ []
  | [], h => absurd rfl h
  | [c], _ => by simp [collapseDoubleUnderscore]
  | c :: d :: rest, _ => by
    rw [collapseDoubleUnderscore]
    by_cases hc : c = '_' ∧ d = '_'
    · rw [if_pos hc]; simp
    · rw [if_neg hc]; simp

theorem collapse_head :
    ∀ l : List Char, (collapseDoubleUnderscore l).head? = l.head?
  | [] => rfl
  | [_] => rfl
  | c :: d :: rest => by
    rw [collapseDoubleUnderscore]
    by_cases hc : c = '_' ∧ d = '_'
    · rw [if_pos hc, hc.1]; rfl
    · rw [if_neg hc]; rfl

theorem collapse_getLast :
    ∀ l : List Char, (collapseDoubleUnderscore l).getLast? = l.getLast?
  | [] => rfl
  | [_] => rfl
  | c :: d :: rest => by
    rw [collapseDoubleUnderscore]
    by_cases hc : c = '_' ∧ d = '_'
    · rw [if_pos hc]
      match rest, collapse_getLast rest with
      | [], _ => simp [collapseDoubleUnderscore, hc.2]
      | x :: xs, ih => 
        have hne := collapse_ne_nil (x :: xs) (by simp)
        match hcl : collapseDoubleUnderscore (x :: xs), ih with
        | y :: ys, ih2 => 
          rw [List.getLast?_cons_cons, ← hcl, ih, List.getLast?_cons_cons,
            List.getLast?_cons_cons]
    · rw [if_neg hc]
      have hne := collapse_ne_nil (d :: rest) (by simp)
      match hcl : collapseDoubleUnderscore (d :: rest), collapse_getLast (d :: rest) with
      | y :: ys, ih2 =>
        rw [List.getLast?_cons_cons, ← hcl, collapse_getLast (d :: rest),
          List.getLast?_cons_cons]

theorem map_eq_self_of_fix {f : Char → Char} {l : List Char}
    (h : ∀ c ∈ l, f c = c) : l.map f = l := by
  rw [List.map_congr_left h]
  exact l.map_id'

theorem dropWhile_eq_self_of_head {p : Char → Bool} {l : List Char}
    (h : ∀ c, l.head? = some c → p c = false) : l.dropWhile p = l := by
  match l with
  | [] => rfl
  | c :: rest =>
    rw [List.dropWhile_cons, if_neg]
    rw [h c rfl]
    simp

theorem strip_eq_self {l : List Char}
    (h1 : ∀ c, l.head? = some c → pyIsSpace c = false)
    (h2 : ∀ c, l.getLast? = some c → pyIsSpace c = false) :
    pyStrip l = l := by
  unfold pyStrip
  rw [dropWhile_eq_self_of_head h1]
  rw [@dropWhile_eq_self_of_head pyIsSpace l.reverse
    (by intro c hc; rw [List.head?_reverse] at hc; exact h2 c hc)]
  exact List.reverse_reverse l

theorem getLast_dropWhile {p : Char → Bool} :
    ∀ l : List Char, l.dropWhile p ≠ [] → (l.dropWhile p).getLast? = l.getLast?
  | [], h => absurd rfl h
  | c :: rest, h => by
    by_cases hp : p c
    · rw [List.dropWhile_cons, if_pos hp] at h ⊢
      have hrest : rest ≠ [] := by
        intro he; rw [he] at h; exact h rfl
      rw [getLast_dropWhile rest h]
      match rest, hrest with
      | x :: xs, _ => rw [List.getLast?_cons_cons]
    · rw [List.dropWhile_cons, if_neg hp]

theorem head_dropWhile_false {p : Char → Bool} (l : List Char) :
    ∀ c, (l.dropWhile p).head? = some c → p c = false := by
  intro c hc
  have := List.head?_dropWhile_not p l
  rw [hc] at this
  exact this

theorem strip_head (l : List Char) :
    ∀ c, (pyStrip l).head? = some c → pyIsSpace c = false := by
  intro c hc
  unfold pyStrip at hc
  rw [List.head?_reverse] at hc
  have hne : (l.dropWhile pyIsSpace).reverse.dropWhile pyIsSpace ≠ [] := by
    intro he; rw [he] at hc; exact Option.noConfusion hc
  rw [getLast_dropWhile _ hne, List.getLast?_reverse] at hc
  exact head_dropWhile_false l c hc

theorem strip_getLast (l : List Char) :
    ∀ c, (pyStrip l).getLast? = some c → pyIsSpace c = false := by
  intro c hc
  unfold pyStrip at hc
  rw [List.getLast?_reverse] at hc
  exact head_dropWhile_false _ c hc

theorem space_lower_char (a : Char) (ha : pyIsSpace a = false) :
    pyIsSpace (if Char.toLower a = ' ' then '_' else Char.toLower a) = false := by
  have h2 : pyIsSpace (Char.toLower a) = false := by rw [pyIsSpace_toLower]; exact ha
  by_cases hsp : Char.toLower a = ' '
  · rw [hsp] at h2
    exact absurd h2 (by decide)
  · rw [if_neg hsp]
    exact h2

theorem mem_space_lower (u : List Char) :
    ∀ c ∈ replaceSpaceToUnderscore (pyLower u), Char.toLower c = c ∧ ¬ (c = ' ') := by
  intro c hc
  unfold replaceSpaceToUnderscore pyLower at hc
  rw [List.mem_map] at hc
  obtain ⟨b, hb, hbc⟩ := hc
  rw [List.mem_map] at hb
  obtain ⟨a, _, hab⟩ := hb
  subst hab
  by_cases hsp : Char.toLower a = ' '
  · rw [if_pos hsp] at hbc
    subst hbc
    exact ⟨by decide, by decide⟩
  · rw [if_neg hsp] at hbc
    subst hbc
    exact ⟨toLower_idem a, hsp⟩

theorem normalize_idem_of_no_double (s : String)
    (h : hasDoubleUnderscore (normalize_column_name s).data = false) :
    normalize_column_name (normalize_column_name s) = normalize_column_name s := by
  have ht : (normalize_column_name s).data =
      collapseDoubleUnderscore (replaceSpaceToUnderscore (pyLower (pyStrip s.data))) := rfl
  rw [ht] at h
  have hmem : ∀ c ∈ (normalize_column_name s).data, Char.toLower c = c ∧ ¬ (c = ' ') := by
    intro c hc
    rw [ht] at hc
    exact mem_space_lower (pyStrip s.data) c (mem_collapse _ c hc)
  have hhead : ∀ c, (normalize_column_name s).data.head? = some c → pyIsSpace c = false := by
    intro c hc
    rw [ht, collapse_head] at hc
    unfold replaceSpaceToUnderscore pyLower at hc
    rw [List.head?_map, List.head?_map] at hc
    match hu : (pyStrip s.data).head?, hc with
    | some a, hc2 =>
      rw [hu] at hc
      simp only [Option.map_some'] at hc
      have hc3 : (if Char.toLower a = ' ' then '_' else Char.toLower a) = c :=
        Option.some.inj hc
      rw [← hc3]
      exact space_lower_char a (strip_head s.data a hu)
  have hlast : ∀ c, (normalize_column_name s).data.getLast? = some c → pyIsSpace c = false := by
    intro c hc
    rw [ht, collapse_getLast] at hc
    unfold replaceSpaceToUnderscore pyLower at hc
    rw [List.getLast?_map, List.getLast?_map] at hc
    match hu : (pyStrip s.data).getLast?, hc with
    | some a, hc2 =>
      rw [hu] at hc
      simp only [Option.map_some'] at hc
      have hc3 : (if Char.toLower a = ' ' then '_' else Char.toLower a) = c :=
        Option.some.inj hc
      rw [← hc3]
      exact space_lower_char a (strip_getLast s.data a hu)
  have hstrip : pyStrip (normalize_column_name s).data = (normalize_column_name s).data :=
    strip_eq_self hhead hlast
  have hlower : pyLower (normalize_column_name s).data = (normalize_column_name s).data :=
    map_eq_self_of_fix (fun c hc => (hmem c hc).1)
  have hspace : replaceSpaceToUnderscore (normalize_column_name s).data =
      (normalize_column_name s).data :=
    map_eq_self_of_fix (fun c hc => if_neg (hmem c hc).2)
  have hcoll : collapseDoubleUnderscore (normalize_column_name s).data =
      (normalize_column_name s).data := by
    rw [ht]
    exact collapse_of_no_double _ h
  show (⟨collapseDoubleUnderscore (replaceSpaceToUnderscore (pyLower
      (pyStrip (normalize_column_name s).data)))⟩ : String) = normalize_column_name s
  rw [hstrip, hlower, hspace, hcoll]

/-- C6 counterexample: the input `"a_ _b"` contains no run of three (or even
two) consecutive spaces, yet one normalization pass leaves the doubled
underscore `"a__b"` and a second pass collapses it further, so
`normalize_column_name` is not idempotent on it; the claim's exception
("three or more consecutive spaces") does not cover this input. -/
theorem claim6_counterexample :
    hasThreeConsecutiveSpaces "a_ _b".data = false ∧
      normalize_column_name (normalize_column_name "a_ _b") ≠ normalize_column_name "a_ _b" :=
  ⟨by decide, by decide⟩

/-- C6 (amended): `normalize_column_name` is idempotent on every input whose
one-pass result contains no leftover doubled underscore (the exception is any
input that leaves a non-collapsed underscore run after one pass, e.g. from
three or more consecutive spaces, but also from pre-existing underscore runs
or space-underscore mixtures); and the two concrete examples hold:
`normalize_column_name "  Customer ID  " = "customer_id"` and
`normalize_column_name "Email  Address" = "email_address"`. -/
theorem claim6_normalize_idempotent_amended :
    (∀ s : String, hasDoubleUnderscore (normalize_column_name s).data = false →
        normalize_column_name (normalize_column_name s) = normalize_column_name s) ∧
      normalize_column_name "  Customer ID  " = "customer_id" ∧
      normalize_column_name "Email  Address" = "email_address" :=
  ⟨normalize_idem_of_no_double, by decide, by decide⟩

/-- Witness for C6: the amended idempotence theorem applied at the concrete
input `"abc def"`, whose one-pass result has no doubled underscore. -/
theorem claim6_witness :
    hasDoubleUnderscore (normalize_column_name "abc def").data = false ∧
      normalize_column_name (normalize_column_name "abc def") = normalize_column_name "abc def" :=
  ⟨by decide, claim6_normalize_idempotent_amended.1 "abc def" (by decide)⟩

/-! ## Spark SQL string expression primitives -/

/-- Spark `substring(str, pos, len)` (SQL semantics, 1-based, negative `pos`
counts from the end, clamped to the string). -/
def sparkSubstring (s : String) (pos : Int) (len : Nat) : String :=
  let n : Int := s.data.length
  let start : Int := if 0 < pos then pos - 1 else if pos < 0 then n + pos else 0
  let stop : Int := start + len
  ⟨(s.data.drop start.toNat).take (stop - (start.toNat : Int)).toNat⟩

/-- `substring` lifted to nullable values (null in, null out). -/
def substrOpt (v : Option String) (pos : Int) (len : Nat) : Option String :=
  v.map (fun s => sparkSubstring s pos len)

/-- Spark `concat`: null if any argument is null. -/
def sparkConcat : List (Option String) → Option String
  | [] => some ""
  | none :: _ => none
  | some s :: rest => (sparkConcat rest).map (fun t => s ++ t)

/-- Split a character list on a separator character (Spark `split` with a
one-character literal pattern and unlimited splits; trailing empty strings
kept). -/
def splitOnChar (sep : Char) : List Char → List (List Char)
  | [] => [[]]
  | c :: rest =>
    if c = sep then [] :: splitOnChar sep rest
    else
      match splitOnChar sep rest with
      | h :: t => (c :: h) :: t
      | [] => [[c]]

/-- Spark `split(col, sep)` on nullable values. -/
def sparkSplit (v : Option String) (sep : Char) : Option (List String) :=
  v.map (fun s => (splitOnChar sep s.data).map (fun l => (⟨l⟩ : String)))

/-- Spark `getItem(i)`: null when out of range or when the array is null. -/
def getItem (v : Option (List String)) (i : Nat) : Option String :=
  v.bind (fun l => l.get? i)

/-- Word character for the Java regex `\b` boundary (`[A-Za-z0-9_]`). -/
def isWordChar (c : Char) : Bool :=
  c.isAlphanum || c = '_'

/-- The position boundary test before a digit run for `\b`. -/
def boundaryBefore : Option Char → Bool
  | none => true
  | some c => !isWordChar c

/-- Does the list start with exactly a six-digit run followed by a word
boundary? -/
def sixDigitRunHere (l : List Char) : Bool :=
  (l.take 6).length = 6 && (l.take 6).all Char.isDigit &&
    (match l.drop 6 with
     | [] => true
     | c :: _ => !isWordChar c)

/-- Leftmost match scan for the regex `\b(\d{6})\b`. -/
def scanSixDigit (prev : Option Char) : List Char → Option (List Char)
  | [] => none
  | c :: rest =>
    if boundaryBefore prev && sixDigitRunHere (c :: rest) then some ((c :: rest).take 6)
    else scanSixDigit (some c) rest

/-- Spark `regexp_extract(col, r'\b(\d{6})\b', 1)`: the first six-digit
word-bounded run, or the empty string when there is no match. -/
def regexpExtractSixDigit (s : String) : String :=
  ⟨(scanSixDigit none s.data).getD []⟩

/-! ## utils/pii_masking.py -/

/-- `mask_email` from `utils/pii_masking.py`. -/
def mask_email (col access_level : Option String) : Option String :=
  let email_parts := sparkSplit col '@'
  let username := getItem email_parts 0
  let domain := getItem email_parts 1
  let partialMask := sparkConcat [substrOpt username 1 1, some "***@", domain]
  if access_level = some "full_access" then col
  else if access_level = some "partial_access" then partialMask
  else some "***@***"

/-- `mask_phone` from `utils/pii_masking.py`. -/
def mask_phone (col access_level : Option String) : Option String :=
  let partialMask := sparkConcat [substrOpt col 1 4, some " ****", substrOpt col (-4) 4]
  if access_level = some "full_access" then col
  else if access_level = some "partial_access" then partialMask
  else some "***"

/-- `mask_nric` from `utils/pii_masking.py`. -/
def mask_nric (col access_level : Option String) : Option String :=
  let partialMask := sparkConcat [substrOpt col 1 1, some "****", substrOpt col (-3) 3]
  if access_level = some "full_access" then col
  else if access_level = some "partial_access" then partialMask
  else some "***"

/-- `mask_address` from `utils/pii_masking.py`. -/
def mask_address (col access_level : Option String) : Option String :=
  let postal_code := col.map regexpExtractSixDigit
  let partialMask := sparkConcat [some "*** Singapore ", postal_code]
  if access_level = some "full_access" then col
  else if access_level = some "partial_access" then partialMask
  else some "***"

/-- `mask_ssn` from `utils/pii_masking.py`. -/
def mask_ssn (col access_level : Option String) : Option String :=
  let partialMask := sparkConcat [some "***-**-", substrOpt col (-4) 4]
  if access_level = some "full_access" then col
  else if access_level = some "partial_access" then partialMask
  else some "***"

/-- C4 counterexample: the claim's first example passes the literal tier
string `"partial"`, but the code only recognizes `"partial_access"`, so
`"partial"` is an unknown tier and falls through to the fully-masked
constant, not to `"a***@example.com"`. -/
theorem claim4_counterexample :
    mask_email (some "alice@example.com") (some "partial") = some "***@***" ∧
      mask_email (some "alice@example.com") (some "partial") ≠ some "a***@example.com" :=
  ⟨by decide, by decide⟩

/-- C4 (amended): with the partial-tier literal the code actually recognizes
(`"partial_access"` instead of `"partial"`),
`mask_email("alice@example.com", "partial_access") = "a***@example.com"`;
`mask_email(x, "full_access") = x` for every x; and
`mask_email(x, "unknown_tier") = "***@***"` for every x. -/
theorem claim4_mask_email_examples_amended :
    mask_email (some "alice@example.com") (some "partial_access") = some "a***@example.com" ∧
      (∀ x : Option String, mask_email x (some "full_access") = x) ∧
      (∀ x : Option String, mask_email x (some "unknown_tier") = some "***@***") := by
  refine ⟨by decide, fun x => ?_, fun x => ?_⟩
  · simp [mask_email]
  · simp only [mask_email]
    rw [if_neg (by decide), if_neg (by decide)]

/-- C5: for every field value and every access-level string other than the
two recognized literals `"full_access"` and `"partial_access"`, each of the
five masking functions returns its fully-masked constant. -/
theorem claim5_unknown_tier_fail_closed :
    ∀ (v : Option String) (a : String), a ≠ "full_access" → a ≠ "partial_access" →
      mask_email v (some a) = some "***@***" ∧
      mask_phone v (some a) = some "***" ∧
      mask_nric v (some a) = some "***" ∧
      mask_address v (some a) = some "***" ∧
      mask_ssn v (some a) = some "***" := by
  intro v a h1 h2
  have e1 : ¬ ((some a : Option String) = some "full_access") := by simpa using h1
  have e2 : ¬ ((some a : Option String) = some "partial_access") := by simpa using h2
  refine ⟨?_, ?_, ?_, ?_, ?_⟩
  · simp only [mask_email]; rw [if_neg e1, if_neg e2]
  · simp only [mask_phone]; rw [if_neg e1, if_neg e2]
  · simp only [mask_nric]; rw [if_neg e1, if_neg e2]
  · simp only [mask_address]; rw [if_neg e1, if_neg e2]
  · simp only [mask_ssn]; rw [if_neg e1, if_neg e2]

/-- Witness for C5 at the concrete unknown tier `"admin"` and value
`"x@y.zz"`. -/
theorem claim5_witness :
    ("admin" ≠ "full_access" ∧ "admin" ≠ "partial_access") ∧
      (mask_email (some "x@y.zz") (some "admin") = some "***@***" ∧
        mask_phone (some "x@y.zz") (some "admin") = some "***" ∧
        mask_nric (some "x@y.zz") (some "admin") = some "***" ∧
        mask_address (some "x@y.zz") (some "admin") = some "***" ∧
        mask_ssn (some "x@y.zz") (some "admin") = some "***") :=
  ⟨⟨by decide, by decide⟩,
    claim5_unknown_tier_fail_closed (some "x@y.zz") "admin" (by decide) (by decide)⟩

/-! ## utils/transformations.py : standardize_phone_number -/

/-- Does the character list start with the given pattern list? -/
def listStarts : List Char → List Char → Bool
  | _, [] => true
  | [], _ :: _ => false
  | c :: l, p :: ps => c = p && listStarts l ps

/-- `s.startswith(pre)` / Spark `Column.startswith` on strings. -/
def strStarts (s pre : String) : Bool :=
  listStarts s.data pre.data

/-- The cleaning step of `standardize_phone_number` from
`utils/transformations.py`: `regexp_replace(col, r'[^\d+]', '')` removes
every character that is neither a digit nor a plus sign (every `+` is kept,
wherever it occurs). -/
def cleanPhoneChars (s : String) : String :=
  ⟨s.data.filter (fun c => c.isDigit || c = '+')⟩

/-- `standardize_phone_number` from `utils/transformations.py`. -/
def standardize_phone_number (s : String) : String :=
  let cleaned := cleanPhoneChars s
  if strStarts cleaned "+65" then cleaned
  else if strStarts cleaned "65" then "+" ++ cleaned
  else if strStarts cleaned "0" then "+65" ++ sparkSubstring cleaned 2 100
  else if cleaned.length = 8 then "+65" ++ cleaned
  else cleaned

/-- The claim-side description of the phone standardizer (C7 as written):
the cleaning step keeps digits and only a LEADING plus sign, then the same
ordered case analysis is applied, the zero case replacing the leading zero
by `+65` with no truncation. -/
def claimPhoneStandardizer (s : String) : String :=
  let cleaned : String :=
    match s.data with
    | '+' :: rest => ⟨'+' :: rest.filter Char.isDigit⟩
    | l => ⟨l.filter Char.isDigit⟩
  if strStarts cleaned "+65" then cleaned
  else if strStarts cleaned "65" then "+" ++ cleaned
  else if strStarts cleaned "0" then "+65" ++ ⟨cleaned.data.drop 1⟩
  else if cleaned.length = 8 then "+65" ++ cleaned
  else cleaned

/-- The amended description of the phone standardizer (C7 amended): the
cleaning step keeps digits and EVERY plus sign; the zero case drops the
leading zero, keeps at most the next 100 characters and prepends `+65`;
the rest of the ordered case analysis is as the claim states. -/
def amendedPhoneStandardizer (s : String) : String :=
  let cleaned : String := ⟨s.data.filter (fun c => c.isDigit || c = '+')⟩
  if strStarts cleaned "+65" then cleaned
  else if strStarts cleaned "65" then "+" ++ cleaned
  else if strStarts cleaned "0" then "+65" ++ ⟨(cleaned.data.drop 1).take 100⟩
  else if cleaned.length = 8 then "+65" ++ cleaned
  else cleaned

/-- C7 counterexample: on `"12+34"` the code keeps the interior plus sign
(`regexp_replace` strips `[^\d+]`, so every `+` survives) and returns
`"12+34"`, while the claim's algorithm (keep only a leading `+`) would clean
to `"1234"` and return `"1234"`. -/
theorem claim7_counterexample :
    standardize_phone_number "12+34" = "12+34" ∧
      claimPhoneStandardizer "12+34" = "1234" ∧
      standardize_phone_number "12+34" ≠ claimPhoneStandardizer "12+34" :=
  ⟨by decide, by decide, by decide⟩

theorem sparkSubstring_two_hundred (s : String) :
    sparkSubstring s 2 100 = ⟨(s.data.drop 1).take 100⟩ := by
  simp [sparkSubstring]

/-- C7 (amended): `standardize_phone_number` first strips all characters
except digits and plus signs (every `+`, not only a leading one), then
applies exactly this ordered case analysis to the cleaned value: if it
starts with `"+65"` it is returned unchanged; else if it starts with `"65"`
a `+` is prepended; else if it starts with `"0"` the leading `0` is dropped,
at most the next 100 characters are kept, and `"+65"` is prepended; else if
the cleaned value has exactly 8 characters `"+65"` is prepended; otherwise
the cleaned value is returned as-is. -/
theorem claim7_phone_standardizer_amended :
    ∀ s : String, standardize_phone_number s = amendedPhoneStandardizer s := by
  intro s
  unfold standardize_phone_number amendedPhoneStandardizer cleanPhoneChars
  simp only [sparkSubstring_two_hundred]

/-! ## utils/data_quality.py : the Quality Engine

A validation rule, once evaluated on a record, is a pair of its name and the
Spark three-valued boolean result of its expression (`none` models SQL NULL).
-/

/-- `array_join(array_compact(...), ", ")`: join with a separator. -/
def joinSep (sep : String) : List String → String
  | [] => ""
  | [x] => x
  | x :: y :: rest => x ++ sep ++ joinSep sep (y :: rest)

/-- The names of the rules whose expression evaluated to `false`
(`F.when(~expr, name)` yields NULL both for a passing rule and for a rule
whose expression is NULL; `array_compact` drops the NULLs). -/
def failedNames (rules : List (String × Option Bool)) : List String :=
  rules.filterMap (fun r => if r.2 = some false then some r.1 else none)

/-- `flag_invalid_values` from `utils/data_quality.py`, evaluated on one
record: the comma-separated failed-rule names, or NULL when the joined
string is empty. -/
def flag_invalid_values (rules : List (String × Option Bool)) : Option String :=
  let flags_string := joinSep ", " (failedNames rules)
  if flags_string ≠ "" then some flags_string else none

/-- `F.when(expr, 1).otherwise(0)` summed over the rules: a rule counts as
passed only when its expression is `true` (NULL counts as 0). -/
def passedCount (rules : List (String × Option Bool)) : Nat :=
  (rules.filter (fun r => r.2 = some true)).length

/-- Spark `F.round(x, 2)` (HALF_UP) on a nonnegative rational. -/
def round2 (q : ℚ) : ℚ :=
  (⌊q * 100 + 1 / 2⌋ : ℚ) / 100

/-- `add_quality_score` from `utils/data_quality.py`, evaluated on one
record: `round((passed / total) * 100, 2)`; SQL division by the literal 0
(an empty rule mapping) yields NULL. -/
def add_quality_score (rules : List (String × Option Bool)) : Option ℚ :=
  if rules.length = 0 then none
  else some (round2 ((passedCount rules : ℚ) / (rules.length : ℚ) * 100))

/-- C1 counterexample: a single rule whose expression evaluates to NULL
(e.g. `validate_gender` on a NULL gender) produces no flag (so
`data_quality_flags` is null) but also does not count as passed, so
`quality_score = 0 ≠ 100`: the "score = 100 iff flags null" direction
fails. -/
theorem claim1_counterexample :
    flag_invalid_values [("gender", (none : Option Bool))] = none ∧
      add_quality_score [("gender", (none : Option Bool))] = some 0 ∧
      (0 : ℚ) ≠ 100 :=
by
  refine ⟨rfl, ?_, by norm_num⟩
  have hpc : passedCount [("gender", (none : Option Bool))] = 0 := rfl
  have h0 : ((passedCount [("gender", (none : Option Bool))] : ℚ) /
      (([("gender", (none : Option Bool))] : List (String × Option Bool)).length : ℚ) * 100) = 0 := by
    rw [hpc]
    norm_num
  rw [add_quality_score, if_neg (by decide), h0]
  have hfl : ⌊(0 : ℚ) * 100 + 1 / 2⌋ = 0 := by
    rw [Int.floor_eq_iff]
    norm_num
  rw [round2, hfl]
  norm_num

theorem joinSep_ne_empty :
    ∀ parts : List String, parts ≠ [] → (∀ x ∈ parts, x ≠ "") →
      joinSep ", " parts ≠ ""
  | [], h, _ => absurd rfl h
  | [x], _, hx => by
    rw [joinSep]
    exact hx x (List.mem_cons_self _ _)
  | x :: y :: rest, _, hx => by
    rw [joinSep]
    intro he
    have hdata : (x ++ ", " ++ joinSep ", " (y :: rest)).data = [] :=
      congrArg String.data he
    rw [String.data_append, String.data_append] at hdata
    have hxnil : x.data = [] := by
      rcases List.append_eq_nil.mp hdata with ⟨h1, _⟩
      rcases List.append_eq_nil.mp h1 with ⟨h2, _⟩
      exact h2
    exact hx x (List.mem_cons_self _ _) (String.ext hxnil)

theorem round2_nonneg {q : ℚ} (h : 0 ≤ q) : 0 ≤ round2 q := by
  unfold round2
  have h1 : (0 : ℤ) ≤ ⌊q * 100 + 1 / 2⌋ := by
    rw [Int.le_floor]
    push_cast
    nlinarith
  positivity

theorem round2_le_100 {q : ℚ} (h : q ≤ 100) : round2 q ≤ 100 := by
  unfold round2
  have h1 : ⌊q * 100 + 1 / 2⌋ ≤ 10000 := by
    rw [Int.floor_le_iff]
    push_cast
    nlinarith
  have h2 : (⌊q * 100 + 1 / 2⌋ : ℚ) ≤ 10000 := by exact_mod_cast h1
  rw [div_le_iff₀ (by norm_num : (0:ℚ) < 100)]
  linarith

theorem round2_100 : round2 100 = 100 := by
  have h : ⌊(100 : ℚ) * 100 + 1 / 2⌋ = 10000 := by
    rw [Int.floor_eq_iff]
    norm_num
  rw [round2, h]
  norm_num

theorem round2_lt_100 {p t : ℕ} (hpt : p < t) (ht : 0 < t) (hbound : t ≤ 19999) :
    round2 ((p : ℚ) / (t : ℚ) * 100) < 100 := by
  unfold round2
  have hT : (0 : ℚ) < (t : ℚ) := by exact_mod_cast ht
  have hp1 : (p : ℚ) ≤ (t : ℚ) - 1 := by
    have : (p : ℚ) + 1 ≤ (t : ℚ) := by exact_mod_cast hpt
    linarith
  have htb : (t : ℚ) ≤ 19999 := by exact_mod_cast hbound
  have key : (p : ℚ) / (t : ℚ) * 100 * 100 + 1 / 2 < 10000 := by
    rw [div_mul_eq_mul_div, div_mul_eq_mul_div, div_add' _ _ _ (ne_of_gt hT),
      div_lt_iff₀ hT]
    nlinarith
  have h1 : ⌊(p : ℚ) / (t : ℚ) * 100 * 100 + 1 / 2⌋ ≤ 9999 := by
    rw [Int.floor_le_iff]
    push_cast
    linarith
  have h2 : (⌊(p : ℚ) / (t : ℚ) * 100 * 100 + 1 / 2⌋ : ℚ) ≤ 9999 := by exact_mod_cast h1
  rw [div_lt_iff₀ (by norm_num : (0:ℚ) < 100)]
  linarith

/-- C1 (amended): over any nonempty rule mapping in which every rule
expression evaluates to a non-NULL boolean, every rule name is nonempty, and
there are at most 19999 rules, the quality score is defined, lies in
[0, 100], and equals 100 exactly when `data_quality_flags` is null. The
original claim fails when a rule expression evaluates to NULL (see the
counterexample): such a rule is not flagged but still lowers the score. -/
theorem claim1_quality_score_amended :
    ∀ rules : List (String × Option Bool),
      rules ≠ [] →
      (∀ r ∈ rules, r.2 ≠ none) →
      (∀ r ∈ rules, r.1 ≠ "") →
      rules.length ≤ 19999 →
      ∃ q, add_quality_score rules = some q ∧ 0 ≤ q ∧ q ≤ 100 ∧
        (q = 100 ↔ flag_invalid_values rules = none) := by
  intro rules hne hnn hname hbound
  have hlen : rules.length ≠ 0 := by
    intro h0
    exact hne (List.length_eq_zero.mp h0)
  have hlpos : 0 < rules.length := Nat.pos_of_ne_zero hlen
  have hple : passedCount rules ≤ rules.length := List.length_filter_le _ _
  refine ⟨round2 ((passedCount rules : ℚ) / (rules.length : ℚ) * 100),
    by rw [add_quality_score, if_neg hlen], ?_, ?_, ?_⟩
  · apply round2_nonneg
    positivity
  · apply round2_le_100
    have hT : (0 : ℚ) < (rules.length : ℚ) := by exact_mod_cast hlpos
    rw [div_mul_eq_mul_div, div_le_iff₀ hT]
    have : (passedCount rules : ℚ) ≤ (rules.length : ℚ) := by exact_mod_cast hple
    nlinarith
  · -- the iff
    have hall : passedCount rules = rules.length ↔ failedNames rules = [] := by
      unfold passedCount failedNames
      rw [List.filter_length_eq_length, List.filterMap_eq_nil_iff]
      constructor
      · intro h r hr
        have h2 : r.2 = some true := of_decide_eq_true (h r hr)
        rw [h2]
        simp
      · intro h r hr
        have h1 := h r hr
        have h2 := hnn r hr
        rcases hv : r.2 with _ | b
        · exact absurd hv h2
        · cases b
          · rw [hv] at h1
            simp at h1
          · decide
    constructor
    · intro h100
      have hpt : passedCount rules = rules.length := by
        by_contra hneq
        have hlt : passedCount rules < rules.length := lt_of_le_of_ne hple hneq
        have := round2_lt_100 hlt hlpos hbound
        rw [h100] at this
        exact lt_irrefl _ this
      rw [flag_invalid_values]
      rw [hall.mp hpt]
      simp [joinSep]
    · intro hflag
      have hfail : failedNames rules = [] := by
        by_contra hfne
        have hjoin : joinSep ", " (failedNames rules) ≠ "" := by
          apply joinSep_ne_empty _ hfne
          intro x hx
          unfold failedNames at hx
          rw [List.mem_filterMap] at hx
          obtain ⟨r, hr, hrx⟩ := hx
          by_cases hc : r.2 = some false
          · rw [if_pos hc] at hrx
            have : r.1 = x := Option.some.inj hrx
            rw [← this]
            exact hname r hr
          · rw [if_neg hc] at hrx
            exact Option.noConfusion hrx
        rw [flag_invalid_values, if_pos hjoin] at hflag
        exact Option.noConfusion hflag
      have hpt : passedCount rules = rules.length := hall.mpr hfail
      rw [hpt, div_self (by exact_mod_cast hlen), one_mul]
      exact round2_100

/-- Witness for C1: the amended theorem applied to the concrete two-rule
mapping where the email rule fails and the nric rule passes. -/
theorem claim1_witness :
    ∃ q, add_quality_score [("nric", some true), ("email", some false)] = some q ∧
      0 ≤ q ∧ q ≤ 100 ∧
      (q = 100 ↔ flag_invalid_values [("nric", some true), ("email", some false)] = none) :=
  claim1_quality_score_amended [("nric", some true), ("email", some false)]
    (by decide) (by decide) (by decide) (by decide)

/-! ## transformations/governance/access_control.py and
transformations/gold/customers_gold.py : temporal access grants -/

/-- A row of the `pii_access_grants` table (schema from
`access_control.py`); timestamps are modelled as integers. -/
structure Grant where
  user_email : String
  user_group : String
  access_level : String
  granted_by : String
  granted_at : Int
  expires_at : Option Int
  is_active : Bool
  reason : Option String
  approval_ticket_id : Option String
deriving DecidableEq

/-- The expiry filter of `customers_gold`:
`(expires_at isNull) | (expires_at > current_timestamp)` under SQL
three-valued logic (a NULL comparison falls away under `|` with the
`isNull` disjunct). -/
def expiresOk (g : Grant) (now : Int) : Bool :=
  match g.expires_at with
  | none => true
  | some e => decide (now < e)

/-- The grant-lookup filter chain of `customers_gold` (lines 48-58): keep
grants for the current user that are active and unexpired. `granted_at` is
never consulted. -/
def effectiveGrants (grants : List Grant) (current_user : String) (now : Int) : List Grant :=
  ((grants.filter (fun g => g.user_email = current_user)).filter
      (fun g => g.is_active = true)).filter
    (fun g => expiresOk g now)

/-- `user_access` of `customers_gold`: project the access level and keep at
most one row (`.select("access_level").limit(1)`). -/
def user_access (grants : List Grant) (current_user : String) (now : Int) : List String :=
  ((effectiveGrants grants current_user now).map Grant.access_level).take 1

/-- The claim-side effectiveness predicate (C2 as written, from the spec):
active AND granted_at ≤ T AND (expires_at null OR expires_at > T). -/
def claimEffective (g : Grant) (now : Int) : Bool :=
  g.is_active && decide (g.granted_at ≤ now) &&
    (match g.expires_at with
     | none => true
     | some e => decide (now < e))

/-- The amended effectiveness predicate actually implemented by the code:
active AND (expires_at null OR expires_at > T); `granted_at` plays no
role, so a future-dated grant is treated as effective. -/
def codeEffective (g : Grant) (now : Int) : Bool :=
  g.is_active && expiresOk g now

/-- A concrete grant whose `granted_at` (time 10) is in the future at
evaluation time 0. -/
def futureGrant : Grant :=
  ⟨"officer@company.com", "governance_officer", "full_access", "system",
    10, none, true, none, none⟩

/-- C2 counterexample: at time 0 the future-dated grant `futureGrant`
(granted_at = 10, active, no expiry) passes the gold view's filter chain —
it is a member of the effective-grant lookup result and its access level is
returned — although the claim says a grant whose granted_at lies in the
future is not effective. -/
theorem claim2_counterexample :
    effectiveGrants [futureGrant] "officer@company.com" 0 = [futureGrant] ∧
      user_access [futureGrant] "officer@company.com" 0 = ["full_access"] ∧
      claimEffective futureGrant 0 = false :=
  ⟨by decide, by decide, by decide⟩

/-- C2 (amended): a grant is treated as effective by the gold view's
tier-resolution lookup if and only if `is_active` is true AND
(`expires_at` is null OR `expires_at > T`); `granted_at` is not consulted,
so a grant whose `granted_at` lies in the future at time T is still
effective. -/
theorem claim2_grant_effectiveness_amended :
    ∀ (grants : List Grant) (g : Grant) (u : String) (T : Int),
      (g ∈ effectiveGrants grants u T ↔
        g ∈ grants ∧ g.user_email = u ∧ codeEffective g T = true) := by
  intro grants g u T
  unfold effectiveGrants codeEffective
  simp only [List.mem_filter, decide_eq_true_eq, Bool.and_eq_true]
  constructor
  · rintro ⟨⟨⟨hm, hu⟩, ha⟩, he⟩
    exact ⟨hm, hu, ha, he⟩
  · rintro ⟨hm, hu, ha, he⟩
    exact ⟨⟨⟨hm, hu⟩, ha⟩, he⟩

/-- Witness for C2: the amended effectiveness statement evaluated at the
concrete future-dated grant. -/
theorem claim2_witness :
    futureGrant ∈ effectiveGrants [futureGrant] "officer@company.com" 0 ↔
      futureGrant ∈ [futureGrant] ∧ futureGrant.user_email = "officer@company.com" ∧
        codeEffective futureGrant 0 = true :=
  claim2_grant_effectiveness_amended [futureGrant] futureGrant "officer@company.com" 0

/-! ### customers_gold row construction (lines 60-70) -/

/-- The gold view's row construction over the silver rows: cross-join the
silver table with the (at most one-row) `user_access` projection, then
default the access level to `"masked_only"` via `coalesce`. The silver row
payload is kept abstract. -/
def customers_gold_rows {α : Type} (silver : List α) (grants : List Grant)
    (current_user : String) (now : Int) : List (α × String) :=
  let ua := (user_access grants current_user now).map some
  let joined := silver.flatMap (fun r => ua.map (fun lvl => (r, lvl)))
  joined.map (fun rl => (rl.1, rl.2.getD "masked_only"))

/-- C3 (code bug): with no effective access grant the `crossJoin` against
the empty one-row lookup produces zero output rows, so the
`coalesce(.., "masked_only")` default never fires: the gold view silently
drops every silver record instead of emitting masked rows. Evaluated at
one silver record and an empty grant table. -/
theorem claim3_code_bug :
    user_access [] "analyst@company.com" 0 = [] ∧
      customers_gold_rows [()] [] "analyst@company.com" 0 = [] ∧
      ([()] : List Unit).length = 1 :=
  ⟨rfl, rfl, rfl⟩

/-! ## utils/validators.py : field validators on cells

A DataFrame cell is NULL, a string, or a number; Spark column expressions
evaluate on cells, with NULL propagating as in SQL. Numeric cells never
occur in the validated or transformed columns of this pipeline, so the
implicit numeric-to-string cast of Spark is not modelled: validators return
NULL on them and transforms leave them unchanged. -/

inductive Cell where
  | null : Cell
  | str : String → Cell
  | num : ℚ → Cell
deriving DecidableEq

/-- Spark `trim`: strip spaces (U+0020) from both ends. -/
def sparkTrim (s : String) : String :=
  ⟨((s.data.dropWhile (fun c => c == ' ')).reverse.dropWhile (fun c => c == ' ')).reverse⟩

/-- Spark `upper` (ASCII). -/
def strUpper (s : String) : String :=
  ⟨s.data.map Char.toUpper⟩

/-- `F.upper(F.trim(col))` on a cell (NULL stays NULL). -/
def upperTrimCell : Cell → Cell
  | Cell.str s => Cell.str (strUpper (sparkTrim s))
  | v => v

/-- The regex `^[STFGM]\d{7}[A-Z]$` of `validate_singapore_nric`. -/
def nricFormatCheck (s : String) : Bool :=
  match s.data with
  | c :: rest =>
    (c == 'S' || c == 'T' || c == 'F' || c == 'G' || c == 'M') &&
      rest.length == 8 && (rest.take 7).all Char.isDigit &&
      (match rest.drop 7 with
       | [d] => decide ('A' ≤ d) && decide (d ≤ 'Z')
       | _ => false)
  | [] => false

/-- `validate_singapore_nric` from `utils/validators.py` on a cell
(`rlike` of NULL is NULL). -/
def validate_singapore_nric : Cell → Option Bool
  | Cell.str s => some (nricFormatCheck s)
  | _ => none

/-- Characters of the local part in the email regex: `[a-zA-Z0-9._%+-]`. -/
def isEmailLocalChar (c : Char) : Bool :=
  c.isAlphanum || c == '.' || c == '_' || c == '%' || c == '+' || c == '-'

/-- Characters of the domain part in the email regex: `[a-zA-Z0-9.-]`. -/
def isEmailDomainChar (c : Char) : Bool :=
  c.isAlphanum || c == '.' || c == '-'

/-- The part after `@` must be `domain ++ "." ++ tld` where the tld (after
the last dot) is at least two letters and the domain is a nonempty run of
domain characters. -/
def emailDomainCheck (l : List Char) : Bool :=
  let rev := l.reverse
  let tldRev := rev.takeWhile (fun c => c != '.')
  match rev.dropWhile (fun c => c != '.') with
  | [] => false
  | _ :: dRev =>
    !dRev.isEmpty && dRev.all isEmailDomainChar &&
      decide (2 ≤ tldRev.length) && tldRev.all Char.isAlpha

/-- The regex `^[a-zA-Z0-9._%+-]+@[a-zA-Z0-9.-]+\.[a-zA-Z]{2,}$` of
`validate_email`. -/
def emailFormatCheck (s : String) : Bool :=
  match splitOnChar '@' s.data with
  | [localPart, domainPart] =>
    !localPart.isEmpty && localPart.all isEmailLocalChar && emailDomainCheck domainPart
  | _ => false

/-- `validate_email` from `utils/validators.py` on a cell:
`col.isNotNull() & col.rlike(..)`; on NULL the `isNotNull` conjunct makes
the whole expression false (not NULL). -/
def validate_email : Cell → Option Bool
  | Cell.null => some false
  | Cell.str s => some (emailFormatCheck s)
  | Cell.num _ => none

/-- `validate_gender` from `utils/validators.py` on a cell:
`F.upper(col).isin(['M','F','X'])` (NULL in, NULL out; no trim). -/
def validate_gender : Cell → Option Bool
  | Cell.str s =>
    some (strUpper s == "M" || strUpper s == "F" || strUpper s == "X")
  | _ => none

/-- `validate_nationality_code` from `utils/validators.py` on a cell. -/
def validate_nationality_code : Cell → Option Bool
  | Cell.str s =>
    some (strUpper s == "USA" || strUpper s == "US" || strUpper s == "UK" ||
      strUpper s == "GB" || strUpper s == "SG" || strUpper s == "CN" ||
      strUpper s == "TW" || strUpper s == "FR" || strUpper s == "DK")
  | _ => none

/-! ## utils/transformations.py : transforms on cells -/

/-- `standardize_nric`: `F.upper(F.trim(col))`. -/
def standardize_nric : Cell → Cell := upperTrimCell

/-- `normalize_gender`: uppercase-trim, keep M/F/X, else NULL. -/
def normalize_gender : Cell → Cell
  | Cell.str s =>
    let u := strUpper (sparkTrim s)
    if u = "M" ∨ u = "F" ∨ u = "X" then Cell.str u else Cell.null
  | v => v

/-- `normalize_nationality_code`: uppercase-trim and map synonyms to
canonical two-letter codes; unrecognized values pass through uppercased. -/
def normalize_nationality_code : Cell → Cell
  | Cell.str s =>
    let u := strUpper (sparkTrim s)
    if u = "USA" ∨ u = "US" then Cell.str "US"
    else if u = "UK" ∨ u = "GB" then Cell.str "GB"
    else if u = "SG" ∨ u = "SINGAPORE" then Cell.str "SG"
    else if u = "CN" ∨ u = "CHINA" then Cell.str "CN"
    else if u = "TW" ∨ u = "TAIWAN" then Cell.str "TW"
    else if u = "FR" ∨ u = "FRANCE" then Cell.str "FR"
    else if u = "DK" ∨ u = "DENMARK" then Cell.str "DK"
    else Cell.str u
  | v => v

/-- `standardize_phone_number` on a cell. -/
def standardize_phone_cell : Cell → Cell
  | Cell.str s => Cell.str (standardize_phone_number s)
  | v => v

/-! ## utils/silver_builder.py -/

/-- A single record of a DataFrame: the ordered list of (column, cell). -/
abbrev Row := List (String × Cell)

/-- The column list of a record. -/
def columns (r : Row) : List String := r.map Prod.fst

/-- The cell of a column (callers only use it on present columns). -/
def getCell (r : Row) (c : String) : Cell :=
  match r.find? (fun p => p.1 = c) with
  | some p => p.2
  | none => Cell.null

/-- Spark `withColumn`: replace an existing column in place, else append. -/
def withColumn (r : Row) (c : String) (v : Cell) : Row :=
  if c ∈ columns r then r.map (fun p => if p.1 = c then (c, v) else p)
  else r ++ [(c, v)]

/-- One loop iteration of the builder stages: apply a keyed update to its
column if that column exists in the record, else skip. -/
def stepUpdate {β : Type} (key : β → String) (payload : β → Row → Cell)
    (acc : Row) (b : β) : Row :=
  if key b ∈ columns acc then withColumn acc (key b) (payload b acc) else acc

/-- `SilverTableConfig` from `utils/silver_builder.py`; `srcPre` models the
`source_prefix` field. -/
structure SilverTableConfig where
  srcPre : Option String
  transformations : List (String × (Cell → Cell))
  validations : List (String × (Cell → Option Bool))
  null_fill_columns : List String
  uppercase_columns : List String

/-- The null-fill update of `fill_nulls_with_none` from
`utils/data_quality.py`: `when(col.isNull(), 'None').otherwise(col)`. -/
def fillCell : Cell → Cell
  | Cell.null => Cell.str "None"
  | v => v

/-- `fill_nulls_with_none` from `utils/data_quality.py` on one record. -/
def fill_nulls_with_none (r : Row) (cols : List String) : Row :=
  cols.foldl (stepUpdate id (fun c acc => fillCell (getCell acc c))) r

/-- The prefixing loop of `build_silver_table`: rename every column that
does not already carry the prefix. -/
def applyPre (pre : Option String) (r : Row) : Row :=
  match pre with
  | none => r
  | some p => r.map (fun q => if strStarts q.1 p then q else (p ++ q.1, q.2))

/-- `Option String` / `Option ℚ` results as cells. -/
def optStrCell : Option String → Cell
  | some s => Cell.str s
  | none => Cell.null

def optNumCell : Option ℚ → Cell
  | some q => Cell.num q
  | none => Cell.null

/-- The transformation loop of `build_silver_table`. -/
def transformStage (config : SilverTableConfig) (r : Row) : Row :=
  config.transformations.foldl
    (stepUpdate Prod.fst (fun (p : String × (Cell → Cell)) acc => p.2 (getCell acc p.1))) r

/-- The uppercase loop of `build_silver_table`. -/
def uppercaseStage (config : SilverTableConfig) (r : Row) : Row :=
  config.uppercase_columns.foldl
    (stepUpdate id (fun c acc => upperTrimCell (getCell acc c))) r

/-- The null-filling statement of `build_silver_table` (guarded by
`if config.null_fill_columns:` in the source). -/
def nullFillStage (config : SilverTableConfig) (r : Row) : Row :=
  if config.null_fill_columns.isEmpty then r
  else fill_nulls_with_none r config.null_fill_columns

/-- The validation-rule construction of `build_silver_table`: one evaluated
rule per configured validation whose target column is present. -/
def buildRules (config : SilverTableConfig) (r4 : Row) : List (String × Option Bool) :=
  config.validations.filterMap
    (fun p => if p.1 ∈ columns r4 then some (p.1, p.2 (getCell r4 p.1)) else none)

/-- The quality-flag and quality-score statements of `build_silver_table`. -/
def qualityStage (config : SilverTableConfig) (addFlags addScore : Bool) (r4 : Row) : Row :=
  let rules := buildRules config r4
  let r5 := if addFlags && !rules.isEmpty then
    withColumn r4 "data_quality_flags" (optStrCell (flag_invalid_values rules)) else r4
  if addScore && !rules.isEmpty then
    withColumn r5 "quality_score" (optNumCell (add_quality_score rules)) else r5

/-- `build_silver_table` from `utils/silver_builder.py`, evaluated on one
record: prefixing, per-column transformations, uppercase columns, null
filling, then the Quality Engine over the validations whose target column
is present. -/
def build_silver_table (df : Row) (config : SilverTableConfig)
    (addFlags addScore : Bool) : Row :=
  qualityStage config addFlags addScore
    (nullFillStage config (uppercaseStage config (transformStage config
      (applyPre config.srcPre df))))

/-- `create_standard_customer_config` from `utils/silver_builder.py`. -/
def create_standard_customer_config : SilverTableConfig :=
  { srcPre := none
  , transformations :=
      [("nric", standardize_nric), ("gender", normalize_gender),
       ("country", normalize_nationality_code), ("phone", standardize_phone_cell)]
  , validations :=
      [("nric", validate_singapore_nric), ("email", validate_email),
       ("gender", validate_gender), ("country", validate_nationality_code)]
  , null_fill_columns := ["email", "phone", "address"]
  , uppercase_columns := ["full_name", "nric", "gender", "country"] }

/-- The configuration with every rule that targets column `c` removed, used
to state that a missing column is skipped at every stage. -/
def removeColumn (config : SilverTableConfig) (c : String) : SilverTableConfig :=
  { config with
    transformations := config.transformations.filter (fun p => p.1 ≠ c)
    validations := config.validations.filter (fun p => p.1 ≠ c)
    null_fill_columns := config.null_fill_columns.filter (fun x => x ≠ c)
    uppercase_columns := config.uppercase_columns.filter (fun x => x ≠ c) }

theorem columns_withColumn_mem {r : Row} {c : String} {v : Cell}
    (h : c ∈ columns r) : columns (withColumn r c v) = columns r := by
  unfold withColumn
  rw [if_pos h]
  unfold columns
  rw [List.map_map]
  apply List.map_congr_left
  intro p _
  by_cases hc : p.1 = c
  · simp [hc]
  · simp [hc]

theorem stepUpdate_columns {β : Type} (key : β → String) (payload : β → Row → Cell)
    (acc : Row) (b : β) : columns (stepUpdate key payload acc b) = columns acc := by
  unfold stepUpdate
  by_cases hm : key b ∈ columns acc
  · rw [if_pos hm, columns_withColumn_mem hm]
  · rw [if_neg hm]

theorem foldl_step_columns {β : Type} (key : β → String) (payload : β → Row → Cell) :
    ∀ (l : List β) (r : Row), columns (l.foldl (stepUpdate key payload) r) = columns r
  | [], _ => rfl
  | b :: t, r => by
    rw [List.foldl_cons, foldl_step_columns key payload t _, stepUpdate_columns]

theorem foldl_filter_skip {β : Type} (key : β → String) (payload : β → Row → Cell)
    (c : String) :
    ∀ (l : List β) (r : Row), c ∉ columns r →
      l.foldl (stepUpdate key payload) r =
        (l.filter (fun b => key b ≠ c)).foldl (stepUpdate key payload) r
  | [], _, _ => rfl
  | b :: t, r, h => by
    rw [List.foldl_cons, List.filter_cons]
    by_cases hb : key b = c
    · have hid : stepUpdate key payload r b = r := by
        unfold stepUpdate
        rw [if_neg (by rw [hb]; exact h)]
      rw [hid]
      rw [if_neg (by simp [hb])]
      exact foldl_filter_skip key payload c t r h
    · rw [if_pos (by simp [hb])]
      rw [List.foldl_cons]
      exact foldl_filter_skip key payload c t (stepUpdate key payload r b)
        (by rw [stepUpdate_columns]; exact h)

theorem rules_filter_skip (vs : List (String × (Cell → Option Bool))) (r4 : Row)
    (c : String) (h : c ∉ columns r4) :
    vs.filterMap (fun p => if p.1 ∈ columns r4 then some (p.1, p.2 (getCell r4 p.1)) else none) =
      (vs.filter (fun p => p.1 ≠ c)).filterMap
        (fun p => if p.1 ∈ columns r4 then some (p.1, p.2 (getCell r4 p.1)) else none) := by
  induction vs with
  | nil => rfl
  | cons p t ih =>
    by_cases hp : p.1 = c
    · have hm : p.1 ∉ columns r4 := by rw [hp]; exact h
      rw [List.filter_cons_of_neg (by simp [hp])]
      rw [List.filterMap_cons_none (by rw [if_neg hm])]
      exact ih
    · rw [List.filter_cons_of_pos (by simp [hp])]
      by_cases hm : p.1 ∈ columns r4
      · rw [List.filterMap_cons_some (by rw [if_pos hm]),
          List.filterMap_cons_some (by rw [if_pos hm]), ih]
      · rw [List.filterMap_cons_none (by rw [if_neg hm]),
          List.filterMap_cons_none (by rw [if_neg hm]), ih]

theorem foldl_filter_skip_str (payload : String → Row → Cell) (c : String)
    (l : List String) (r : Row) (h : c ∉ columns r) :
    l.foldl (stepUpdate id payload) r =
      (l.filter (fun b => b ≠ c)).foldl (stepUpdate id payload) r :=
  foldl_filter_skip id payload c l r h

theorem nullFillStage_eq (config : SilverTableConfig) (r : Row) :
    nullFillStage config r = fill_nulls_with_none r config.null_fill_columns := by
  unfold nullFillStage
  cases hc : config.null_fill_columns with
  | nil => rfl
  | cons x t => rfl

/-- C9: for every record and every configured column name `c` absent from
the (possibly prefixed) record, `build_silver_table` skips `c` at every
stage: deleting `c` from the transformation, uppercase, null-fill and
validation parts of the configuration leaves the output record unchanged,
so the missing column causes no error and no other column is affected. -/
theorem claim9_missing_column_skipped :
    ∀ (df : Row) (config : SilverTableConfig) (c : String) (aF aS : Bool),
      c ∉ columns (applyPre config.srcPre df) →
      build_silver_table df config aF aS = build_silver_table df (removeColumn config c) aF aS := by
  intro df config c aF aS h
  have h2 : c ∉ columns (transformStage config (applyPre config.srcPre df)) := by
    unfold transformStage
    rw [foldl_step_columns]
    exact h
  have h3 : c ∉ columns (uppercaseStage config (transformStage config
      (applyPre config.srcPre df))) := by
    unfold uppercaseStage
    rw [foldl_step_columns]
    exact h2
  have h4 : c ∉ columns (nullFillStage config (uppercaseStage config (transformStage config
      (applyPre config.srcPre df)))) := by
    rw [nullFillStage_eq]
    unfold fill_nulls_with_none
    rw [foldl_step_columns]
    exact h3
  have E2 : transformStage (removeColumn config c) (applyPre (removeColumn config c).srcPre df) =
      transformStage config (applyPre config.srcPre df) := by
    show transformStage (removeColumn config c) (applyPre config.srcPre df) =
      transformStage config (applyPre config.srcPre df)
    unfold transformStage removeColumn
    exact (foldl_filter_skip Prod.fst
      (fun (p : String × (Cell → Cell)) acc => p.2 (getCell acc p.1)) c
      config.transformations _ h).symm
  have E3 : uppercaseStage (removeColumn config c)
        (transformStage (removeColumn config c) (applyPre (removeColumn config c).srcPre df)) =
      uppercaseStage config (transformStage config (applyPre config.srcPre df)) := by
    rw [E2]
    unfold uppercaseStage removeColumn
    exact (foldl_filter_skip_str (fun c acc => upperTrimCell (getCell acc c)) c
      config.uppercase_columns _ h2).symm
  have E4 : nullFillStage (removeColumn config c)
        (uppercaseStage (removeColumn config c)
          (transformStage (removeColumn config c) (applyPre (removeColumn config c).srcPre df))) =
      nullFillStage config (uppercaseStage config (transformStage config
        (applyPre config.srcPre df))) := by
    rw [E3, nullFillStage_eq, nullFillStage_eq]
    show fill_nulls_with_none _ (config.null_fill_columns.filter (fun x => x ≠ c)) = _
    unfold fill_nulls_with_none
    exact (foldl_filter_skip_str (fun c acc => fillCell (getCell acc c)) c
      config.null_fill_columns _ h3).symm
  show qualityStage config aF aS _ = qualityStage (removeColumn config c) aF aS _
  rw [E4]
  unfold qualityStage buildRules
  rw [show (removeColumn config c).validations =
    config.validations.filter (fun p => p.1 ≠ c) from rfl]
  rw [← rules_filter_skip config.validations _ c h4]

/-- Witness for C9: the standard customer configuration applied to a
one-column record lacking the configured column `"email"`. -/
theorem claim9_witness :
    ("email" ∉ columns (applyPre create_standard_customer_config.srcPre
        [("full_name", Cell.str "A")])) ∧
      build_silver_table [("full_name", Cell.str "A")] create_standard_customer_config true true =
        build_silver_table [("full_name", Cell.str "A")]
          (removeColumn create_standard_customer_config "email") true true :=
  ⟨by decide, claim9_missing_column_skipped [("full_name", Cell.str "A")]
    create_standard_customer_config "email" true true (by decide)⟩

theorem joinSep_decompose :
    ∀ (parts : List String) (x : String), x ∈ parts →
      ∃ l r : String, joinSep ", " parts = l ++ x ++ r
  | [], x, hx => absurd hx (List.not_mem_nil x)
  | [y], x, hx => by
    rcases List.mem_singleton.mp hx with rfl
    exact ⟨"", "", by apply String.ext; simp [joinSep, String.data_append]⟩
  | y :: z :: rest, x, hx => by
    rcases List.mem_cons.mp hx with rfl | hx2
    · refine ⟨"", ", " ++ joinSep ", " (z :: rest), ?_⟩
      rw [joinSep]
      apply String.ext
      simp [String.data_append]
    · obtain ⟨l, r, hlr⟩ := joinSep_decompose (z :: rest) x hx2
      refine ⟨y ++ ", " ++ l, r, ?_⟩
      rw [joinSep, hlr]
      apply String.ext
      simp [String.data_append]

theorem flags_contain_failed (rules : List (String × Option Bool)) (x : String)
    (hxne : x ≠ "") (hmem : (x, (some false : Option Bool)) ∈ rules) :
    ∃ fl, flag_invalid_values rules = some fl ∧ ∃ l r, fl = l ++ x ++ r := by
  have hx : x ∈ failedNames rules := by
    unfold failedNames
    rw [List.mem_filterMap]
    exact ⟨(x, some false), hmem, by rw [if_pos rfl]⟩
  obtain ⟨l, r, hlr⟩ := joinSep_decompose _ _ hx
  have hne : joinSep ", " (failedNames rules) ≠ "" := by
    rw [hlr]
    intro h0
    have hd := congrArg String.data h0
    rw [String.data_append, String.data_append] at hd
    rcases List.append_eq_nil.mp hd with ⟨h1, _⟩
    rcases List.append_eq_nil.mp h1 with ⟨_, h2⟩
    exact hxne (String.ext h2)
  refine ⟨joinSep ", " (failedNames rules), ?_, l, r, hlr⟩
  show (if joinSep ", " (failedNames rules) ≠ "" then
    some (joinSep ", " (failedNames rules)) else none) = some (joinSep ", " (failedNames rules))
  rw [if_pos hne]

theorem score_lt_100_of_failed (rules : List (String × Option Bool))
    (r0 : String × Option Bool) (hmem : r0 ∈ rules) (hfail : r0.2 ≠ some true)
    (hbound : rules.length ≤ 19999) :
    ∃ q, add_quality_score rules = some q ∧ q < 100 := by
  have hlen : rules.length ≠ 0 := by
    intro h0
    rw [List.length_eq_zero] at h0
    rw [h0] at hmem
    exact absurd hmem (List.not_mem_nil r0)
  have hlt : passedCount rules < rules.length := by
    apply lt_of_le_of_ne (List.length_filter_le _ _)
    intro he
    exact hfail (of_decide_eq_true (List.filter_length_eq_length.mp he r0 hmem))
  refine ⟨_, ?_, round2_lt_100 hlt (Nat.pos_of_ne_zero hlen) hbound⟩
  rw [add_quality_score, if_neg hlen]

/-- One bronze customer record (CSV columns plus ingestion metadata), with
abstract cell contents. -/
def customerBronzeRow (cid fn em ph nr dob addr ctry gen sts lls st seg cs ai inf ints : Cell) :
    Row :=
  [("customer_id", cid), ("full_name", fn), ("email", em), ("phone", ph),
   ("nric", nr), ("dob", dob), ("address", addr), ("country", ctry),
   ("gender", gen), ("signup_ts", sts), ("last_login_ts", lls), ("status", st),
   ("segment", seg), ("credit_score", cs), ("annual_income", ai),
   ("ingested_file", inf), ("ingestion_ts", ints)]

/-- The silver record produced from a bronze customer record with a NULL
email by `build_silver_table` under the standard customer configuration. -/
def silverOutNullEmail (cid fn ph nr dob addr ctry gen sts lls st seg cs ai inf ints : Cell) :
    Row :=
  build_silver_table
    (customerBronzeRow cid fn Cell.null ph nr dob addr ctry gen sts lls st seg cs ai inf ints)
    create_standard_customer_config true true

set_option maxHeartbeats 6400000 in
/-- C10: for every customer record whose email is NULL, the standard
configuration first null-fills the email to the literal string "None";
"None" fails the email validator, so the record's `data_quality_flags`
contains the rule name "email" and its `quality_score` is strictly below
100 — absent PII counts as a validation failure, not as a skipped rule. -/
theorem claim10_null_email_flagged :
    ∀ cid fn ph nr dob addr ctry gen sts lls st seg cs ai inf ints : Cell,
      (∃ fl, getCell (silverOutNullEmail cid fn ph nr dob addr ctry gen sts lls st seg cs ai inf ints)
          "data_quality_flags" = Cell.str fl ∧ ∃ l r : String, fl = l ++ "email" ++ r) ∧
      (∃ q, getCell (silverOutNullEmail cid fn ph nr dob addr ctry gen sts lls st seg cs ai inf ints)
          "quality_score" = Cell.num q ∧ q < 100) := by
  intro cid fn ph nr dob addr ctry gen sts lls st seg cs ai inf ints
  have f1 : applyPre create_standard_customer_config.srcPre
      (customerBronzeRow cid fn Cell.null ph nr dob addr ctry gen sts lls st seg cs ai inf ints) =
      customerBronzeRow cid fn Cell.null ph nr dob addr ctry gen sts lls st seg cs ai inf ints := rfl
  have f2 : transformStage create_standard_customer_config
      (customerBronzeRow cid fn Cell.null ph nr dob addr ctry gen sts lls st seg cs ai inf ints) =
      [("customer_id", cid),
   ("full_name", fn),
   ("email", Cell.null),
   ("phone", standardize_phone_cell ph),
   ("nric", standardize_nric nr),
   ("dob", dob),
   ("address", addr),
   ("country", normalize_nationality_code ctry),
   ("gender", normalize_gender gen),
   ("signup_ts", sts),
   ("last_login_ts", lls),
   ("status", st),
   ("segment", seg),
   ("credit_score", cs),
   ("annual_income", ai),
   ("ingested_file", inf),
   ("ingestion_ts", ints)] := rfl
  have f3 : uppercaseStage create_standard_customer_config
      [("customer_id", cid),
   ("full_name", fn),
   ("email", Cell.null),
   ("phone", standardize_phone_cell ph),
   ("nric", standardize_nric nr),
   ("dob", dob),
   ("address", addr),
   ("country", normalize_nationality_code ctry),
   ("gender", normalize_gender gen),
   ("signup_ts", sts),
   ("last_login_ts", lls),
   ("status", st),
   ("segment", seg),
   ("credit_score", cs),
   ("annual_income", ai),
   ("ingested_file", inf),
   ("ingestion_ts", ints)] = [("customer_id", cid),
   ("full_name", upperTrimCell (fn)),
   ("email", Cell.null),
   ("phone", standardize_phone_cell ph),
   ("nric", upperTrimCell (standardize_nric nr)),
   ("dob", dob),
   ("address", addr),
   ("country", upperTrimCell (normalize_nationality_code ctry)),
   ("gender", upperTrimCell (normalize_gender gen)),
   ("signup_ts", sts),
   ("last_login_ts", lls),
   ("status", st),
   ("segment", seg),
   ("credit_score", cs),
   ("annual_income", ai),
   ("ingested_file", inf),
   ("ingestion_ts", ints)] := rfl
  have f4 : nullFillStage create_standard_customer_config
      [("customer_id", cid),
   ("full_name", upperTrimCell (fn)),
   ("email", Cell.null),
   ("phone", standardize_phone_cell ph),
   ("nric", upperTrimCell (standardize_nric nr)),
   ("dob", dob),
   ("address", addr),
   ("country", upperTrimCell (normalize_nationality_code ctry)),
   ("gender", upperTrimCell (normalize_gender gen)),
   ("signup_ts", sts),
   ("last_login_ts", lls),
   ("status", st),
   ("segment", seg),
   ("credit_score", cs),
   ("annual_income", ai),
   ("ingested_file", inf),
   ("ingestion_ts", ints)] = [("customer_id", cid),
   ("full_name", upperTrimCell (fn)),
   ("email", Cell.str "None"),
   ("phone", fillCell (standardize_phone_cell ph)),
   ("nric", upperTrimCell (standardize_nric nr)),
   ("dob", dob),
   ("address", fillCell addr),
   ("country", upperTrimCell (normalize_nationality_code ctry)),
   ("gender", upperTrimCell (normalize_gender gen)),
   ("signup_ts", sts),
   ("last_login_ts", lls),
   ("status", st),
   ("segment", seg),
   ("credit_score", cs),
   ("annual_income", ai),
   ("ingested_file", inf),
   ("ingestion_ts", ints)] := rfl
  have f5 : buildRules create_standard_customer_config
      [("customer_id", cid),
   ("full_name", upperTrimCell (fn)),
   ("email", Cell.str "None"),
   ("phone", fillCell (standardize_phone_cell ph)),
   ("nric", upperTrimCell (standardize_nric nr)),
   ("dob", dob),
   ("address", fillCell addr),
   ("country", upperTrimCell (normalize_nationality_code ctry)),
   ("gender", upperTrimCell (normalize_gender gen)),
   ("signup_ts", sts),
   ("last_login_ts", lls),
   ("status", st),
   ("segment", seg),
   ("credit_score", cs),
   ("annual_income", ai),
   ("ingested_file", inf),
   ("ingestion_ts", ints)] =
      [("nric", validate_singapore_nric (upperTrimCell (standardize_nric nr))),
   ("email", some false),
   ("gender", validate_gender (upperTrimCell (normalize_gender gen))),
   ("country", validate_nationality_code (upperTrimCell (normalize_nationality_code ctry)))] := rfl
  have f6 : qualityStage create_standard_customer_config true true
      [("customer_id", cid),
   ("full_name", upperTrimCell (fn)),
   ("email", Cell.str "None"),
   ("phone", fillCell (standardize_phone_cell ph)),
   ("nric", upperTrimCell (standardize_nric nr)),
   ("dob", dob),
   ("address", fillCell addr),
   ("country", upperTrimCell (normalize_nationality_code ctry)),
   ("gender", upperTrimCell (normalize_gender gen)),
   ("signup_ts", sts),
   ("last_login_ts", lls),
   ("status", st),
   ("segment", seg),
   ("credit_score", cs),
   ("annual_income", ai),
   ("ingested_file", inf),
   ("ingestion_ts", ints)] =
      [("customer_id", cid),
   ("full_name", upperTrimCell (fn)),
   ("email", Cell.str "None"),
   ("phone", fillCell (standardize_phone_cell ph)),
   ("nric", upperTrimCell (standardize_nric nr)),
   ("dob", dob),
   ("address", fillCell addr),
   ("country", upperTrimCell (normalize_nationality_code ctry)),
   ("gender", upperTrimCell (normalize_gender gen)),
   ("signup_ts", sts),
   ("last_login_ts", lls),
   ("status", st),
   ("segment", seg),
   ("credit_score", cs),
   ("annual_income", ai),
   ("ingested_file", inf),
   ("ingestion_ts", ints),
   ("data_quality_flags", optStrCell (flag_invalid_values
    [("nric", validate_singapore_nric (upperTrimCell (standardize_nric nr))),
   ("email", some false),
   ("gender", validate_gender (upperTrimCell (normalize_gender gen))),
   ("country", validate_nationality_code (upperTrimCell (normalize_nationality_code ctry)))])),
   ("quality_score", optNumCell (add_quality_score
    [("nric", validate_singapore_nric (upperTrimCell (standardize_nric nr))),
   ("email", some false),
   ("gender", validate_gender (upperTrimCell (normalize_gender gen))),
   ("country", validate_nationality_code (upperTrimCell (normalize_nationality_code ctry)))]))] := rfl
  have hout : silverOutNullEmail cid fn ph nr dob addr ctry gen sts lls st seg cs ai inf ints =
      [("customer_id", cid),
   ("full_name", upperTrimCell (fn)),
   ("email", Cell.str "None"),
   ("phone", fillCell (standardize_phone_cell ph)),
   ("nric", upperTrimCell (standardize_nric nr)),
   ("dob", dob),
   ("address", fillCell addr),
   ("country", upperTrimCell (normalize_nationality_code ctry)),
   ("gender", upperTrimCell (normalize_gender gen)),
   ("signup_ts", sts),
   ("last_login_ts", lls),
   ("status", st),
   ("segment", seg),
   ("credit_score", cs),
   ("annual_income", ai),
   ("ingested_file", inf),
   ("ingestion_ts", ints),
   ("data_quality_flags", optStrCell (flag_invalid_values
    [("nric", validate_singapore_nric (upperTrimCell (standardize_nric nr))),
   ("email", some false),
   ("gender", validate_gender (upperTrimCell (normalize_gender gen))),
   ("country", validate_nationality_code (upperTrimCell (normalize_nationality_code ctry)))])),
   ("quality_score", optNumCell (add_quality_score
    [("nric", validate_singapore_nric (upperTrimCell (standardize_nric nr))),
   ("email", some false),
   ("gender", validate_gender (upperTrimCell (normalize_gender gen))),
   ("country", validate_nationality_code (upperTrimCell (normalize_nationality_code ctry)))]))] := by
    unfold silverOutNullEmail build_silver_table
    rw [f1, f2, f3, f4]
    exact f6
  have hmem : ("email", (some false : Option Bool)) ∈
      [("nric", validate_singapore_nric (upperTrimCell (standardize_nric nr))),
   ("email", some false),
   ("gender", validate_gender (upperTrimCell (normalize_gender gen))),
   ("country", validate_nationality_code (upperTrimCell (normalize_nationality_code ctry)))] :=
    List.mem_cons_of_mem _ (List.mem_cons_self _ _)
  constructor
  · obtain ⟨fl, hfl2, l, r, hlr⟩ := flags_contain_failed _ "email" (by decide) hmem
    refine ⟨fl, ?_, l, r, hlr⟩
    rw [hout]
    show optStrCell (flag_invalid_values
      [("nric", validate_singapore_nric (upperTrimCell (standardize_nric nr))),
   ("email", some false),
   ("gender", validate_gender (upperTrimCell (normalize_gender gen))),
   ("country", validate_nationality_code (upperTrimCell (normalize_nationality_code ctry)))]) = Cell.str fl
    rw [hfl2]
    rfl
  · obtain ⟨q, hq, hq100⟩ := score_lt_100_of_failed _ ("email", some false) hmem
      (by decide) (by norm_num)
    refine ⟨q, ?_, hq100⟩
    rw [hout]
    show optNumCell (add_quality_score
      [("nric", validate_singapore_nric (upperTrimCell (standardize_nric nr))),
   ("email", some false),
   ("gender", validate_gender (upperTrimCell (normalize_gender gen))),
   ("country", validate_nationality_code (upperTrimCell (normalize_nationality_code ctry)))]) = Cell.num q
    rw [hq]
    rfl

/-! ## utils/scd_builder.py : the SCD Type 2 versioning contract

The repository only configures the merge (`create_customer_scd_config`,
`create_scd_type2_flow_with_quality_checks`); the merge engine itself is the
platform's Auto CDC flow, so its transition relation is modelled from the
spec (section 4.5) and instantiated with the column configuration taken from
the source. -/

/-- The silver-layer column list (the `customers_silver` select). -/
def silverColumns : List String :=
  ["customer_id", "full_name", "email", "phone", "nric", "dob", "address",
   "postal_code", "country", "gender", "signup_ts", "last_login_ts", "status",
   "segment", "credit_score", "annual_income", "data_quality_flags",
   "quality_score", "is_valid_postal_code", "ingested_file", "ingestion_ts",
   "silver_processed_ts"]

/-- The metadata exclusion set of `create_customer_scd_config` from
`utils/scd_builder.py` (`track_history_except_columns`). -/
def customerMetadataColumns : List String :=
  ["ingested_file", "ingestion_ts", "silver_processed_ts",
   "data_quality_flags", "quality_score", "is_valid_postal_code"]

/-- A versioned-table record: a valuation of the column universe. -/
abbrev SRow := String → Option String

/-- One SCD Type 2 version of a key: validity interval `[startAt, endAt)`
(open end = current) and the record data. Histories are kept newest first. -/
structure Version where
  startAt : Int
  endAt : Option Int
  data : SRow

/-- Modelled from the spec: a tracked column differs between the current
version and the incoming change; with `ignore_null_updates` (the customer
config sets it) a NULL incoming value never counts as a change. -/
def trackedChanged (excluded cols : List String) (cur incoming : SRow) : Bool :=
  cols.any (fun c => !excluded.contains c &&
    (match incoming c with
     | none => false
     | some v => decide (cur c ≠ some v)))

/-- Modelled from the spec: the data of a newly opened version; with
`ignore_null_updates`, NULL incoming values do not overwrite. -/
def applyIncoming (cur incoming : SRow) : SRow :=
  fun c =>
    match incoming c with
    | none => cur c
    | some v => some v

/-- Modelled from the spec (section 4.5, the Auto CDC merge the repository
configures but does not implement): the transition on receiving one change
with sequence value `S` for a key whose history is `hist` (newest first).
No current version: open a new one. Else, if no tracked column differs,
discard the change; otherwise close the current version at `S` and open a
new current version starting at `S`. -/
def scdMerge (excluded cols : List String) (hist : List Version)
    (incoming : SRow) (S : Int) : List Version :=
  match hist with
  | [] => [⟨S, none, incoming⟩]
  | cur :: older =>
    if cur.endAt = none then
      if trackedChanged excluded cols cur.data incoming then
        ⟨S, none, applyIncoming cur.data incoming⟩ ::
          ⟨cur.startAt, some S, cur.data⟩ :: older
      else cur :: older
    else ⟨S, none, incoming⟩ :: hist

/-- A version's interval is ordered (vacuous when the version is open). -/
def intervalOk (v : Version) : Prop :=
  match v.endAt with
  | none => True
  | some e => v.startAt < e

/-- Well-formed history (newest first): each older version's end equals the
next newer version's start (contiguous, non-overlapping) and every closed
interval is ordered; only the newest version can be open. -/
def WFHist : List Version → Prop
  | [] => True
  | [v] => intervalOk v
  | v :: w :: rest => intervalOk v ∧ w.endAt = some v.startAt ∧ WFHist (w :: rest)

/-- The number of open (current) versions in a history. -/
def openCount (hist : List Version) : Nat :=
  (hist.filter (fun v => v.endAt = none)).length

theorem wf_closed_tail :
    ∀ (w : Version) (rest : List Version), WFHist (w :: rest) → w.endAt ≠ none →
      (w :: rest).filter (fun v => decide (v.endAt = none)) = []
  | w, [], _, hcl => by
    rw [List.filter_cons_of_neg (by simpa using hcl)]
    rfl
  | w, x :: rest, hwf, hcl => by
    have hwf2 : intervalOk w ∧ x.endAt = some w.startAt ∧ WFHist (x :: rest) := hwf
    rw [List.filter_cons_of_neg (by simpa using hcl)]
    exact wf_closed_tail x rest hwf2.2.2 (by rw [hwf2.2.1]; simp)

/-- C8: for the SCD Type 2 silver table configured with the customer
metadata exclusion set, a merge of an incoming change that differs from the
current version only in excluded metadata columns opens no new version,
while a change in a tracked column closes the current version with end `S`
(the new sequence value) and opens a new current version with start `S`,
keeping the history contiguous and non-overlapping with exactly one open
version. -/
theorem claim8_scd_merge :
    ∀ (cur : Version) (older : List Version) (incoming : SRow) (S : Int),
      cur.endAt = none → WFHist (cur :: older) → cur.startAt < S →
      ((∀ col ∈ silverColumns, customerMetadataColumns.contains col = false →
          incoming col = none ∨ incoming col = cur.data col) →
        scdMerge customerMetadataColumns silverColumns (cur :: older) incoming S =
          cur :: older) ∧
      (trackedChanged customerMetadataColumns silverColumns cur.data incoming = true →
        scdMerge customerMetadataColumns silverColumns (cur :: older) incoming S =
          ⟨S, none, applyIncoming cur.data incoming⟩ ::
            ⟨cur.startAt, some S, cur.data⟩ :: older ∧
        WFHist (⟨S, none, applyIncoming cur.data incoming⟩ ::
          ⟨cur.startAt, some S, cur.data⟩ :: older) ∧
        openCount (⟨S, none, applyIncoming cur.data incoming⟩ ::
          ⟨cur.startAt, some S, cur.data⟩ :: older) = 1) := by
  intro cur older incoming S hopen hwf hS
  have hwfC : WFHist ((⟨cur.startAt, some S, cur.data⟩ : Version) :: older) := by
    cases older with
    | nil =>
      show intervalOk ⟨cur.startAt, some S, cur.data⟩
      exact hS
    | cons w rest =>
      have hwf2 : intervalOk cur ∧ w.endAt = some cur.startAt ∧ WFHist (w :: rest) := hwf
      exact ⟨hS, hwf2.2.1, hwf2.2.2⟩
  constructor
  · intro hmeta
    have hch : trackedChanged customerMetadataColumns silverColumns cur.data incoming
        = false := by
      unfold trackedChanged
      rw [List.any_eq_false]
      intro col hcol
      by_cases hex : customerMetadataColumns.contains col
      · rw [hex]
        simp
      · have hex2 : customerMetadataColumns.contains col = false :=
          Bool.not_eq_true _ |>.mp hex
        rcases hmeta col hcol hex2 with hn | he
        · simp [hn]
        · rcases hv : incoming col with _ | v
          · simp [hv]
          · have hcv : cur.data col = some v := by rw [← he, hv]
            simp [hv, hcv]
    have hred : scdMerge customerMetadataColumns silverColumns (cur :: older) incoming S =
      (if cur.endAt = none then
        (if trackedChanged customerMetadataColumns silverColumns cur.data incoming then
          (⟨S, none, applyIncoming cur.data incoming⟩ : Version) ::
            ⟨cur.startAt, some S, cur.data⟩ :: older
        else cur :: older)
      else ⟨S, none, incoming⟩ :: cur :: older) := rfl
    rw [hred, if_pos hopen, if_neg (by rw [hch]; simp)]
  · intro hch
    refine ⟨?_, ⟨trivial, rfl, hwfC⟩, ?_⟩
    · have hred2 : scdMerge customerMetadataColumns silverColumns (cur :: older) incoming S =
      (if cur.endAt = none then
        (if trackedChanged customerMetadataColumns silverColumns cur.data incoming then
          (⟨S, none, applyIncoming cur.data incoming⟩ : Version) ::
            ⟨cur.startAt, some S, cur.data⟩ :: older
        else cur :: older)
      else ⟨S, none, incoming⟩ :: cur :: older) := rfl
      rw [hred2, if_pos hopen, if_pos hch]
    · unfold openCount
      rw [List.filter_cons_of_pos (by simp)]
      rw [wf_closed_tail _ older hwfC (by simp)]
      rfl

/-- The concrete current version and incoming change of the C8 witness:
the incoming change updates only the tracked column `status`. -/
def scdCurExample : Version := ⟨0, none, fun _ => none⟩

def scdIncomingExample : SRow := fun c => if c = "status" then some "ACTIVE" else none

/-- Witness for C8: the merge theorem applied at sequence value 1 to a
single-version history with a tracked `status` change. -/
theorem claim8_witness :
    scdMerge customerMetadataColumns silverColumns [scdCurExample] scdIncomingExample 1 =
      [⟨1, none, applyIncoming scdCurExample.data scdIncomingExample⟩,
       ⟨0, some 1, scdCurExample.data⟩] ∧
      openCount [⟨1, none, applyIncoming scdCurExample.data scdIncomingExample⟩,
        ⟨0, some 1, scdCurExample.data⟩] = 1 := by
  have h := claim8_scd_merge scdCurExample [] scdIncomingExample 1 rfl trivial (by decide)
  have h2 := h.2 (by decide)
  exact ⟨h2.1, h2.2.2⟩

end DataCleansing
